import Mathlib

/-!
Verification of `reading-syncer` (src/main.rs): a batch pipeline that fetches
a Notion database, transforms its `results` records into a reading list,
writes one markdown file per item, and commits/pushes the result.

Shallow embedding. `serde_json::Value` is modelled by `Json` (number values
are irrelevant to every claim, so they carry an `Int` placeholder; floats are
not modelled). The filesystem is modelled by `FS`: a set of created
directories plus a partial map from paths to file contents; `File::create`
truncates, so a write overwrites. `main`'s control flow is modelled by
`runMain`, parameterised by the outcomes of the external effects (the HTTP
fetch, the repository acquisition and the commit/push), producing the ordered
trace of stage events together with the final filesystem.
-/

/-- Model of `serde_json::Value`. -/
inductive Json where
  | null : Json
  | bool : Bool → Json
  | num : Int → Json
  | str : String → Json
  | arr : List Json → Json
  | obj : List (String × Json) → Json

/-- `Value::get(key)`: field lookup on objects, `None` on every other shape. -/
def Json.get : Json → String → Option Json
  | .obj fields, key => (fields.find? (fun f => f.1 = key)).map (fun f => f.2)
  | _, _ => none

/-- `Value::as_array()`. -/
def Json.asArray : Json → Option (List Json)
  | .arr xs => some xs
  | _ => none

/-- `Value::as_str()`. -/
def Json.asStr : Json → Option String
  | .str s => some s
  | _ => none

/-- `struct ReadingListItem { url, title, date }`. -/
structure ReadingListItem where
  url : String
  title : String
  date : String
deriving DecidableEq, Repr

/-- `struct ReadingList(Vec<ReadingListItem>)`. -/
structure ReadingList where
  items : List ReadingListItem
deriving DecidableEq, Repr

/-- `str::replace("/", "-")`: the pattern is a single character, so the
replacement is a character map. -/
def replaceSlash (s : String) : String :=
  ⟨s.data.map (fun c => if c = '/' then '-' else c)⟩

/-- `const DIST_PATH`. -/
def DIST_PATH : String := "dist/content/reading/"

/-- The body of the `for record in ...` loop in
`get_formatted_data_from_database`: each `?` on a missing or wrongly shaped
field makes the whole extraction return `none`. -/
def extractItem (record : Json) : Option ReadingListItem :=
  match record.get "properties" with
  | none => none
  | some props =>
    match ((props.get "URL").bind (fun u => u.get "url")).bind Json.asStr with
    | none => none
    | some url =>
      match (((((props.get "Name").bind (fun n => n.get "title")).bind
          Json.asArray).bind (fun a => a.get? 0)).bind
          (fun t0 => t0.get "plain_text")).bind Json.asStr with
      | none => none
      | some pt =>
        match (record.get "created_time").bind Json.asStr with
        | none => none
        | some date => some ⟨url, replaceSlash pt, date⟩

/-- The loop of `get_formatted_data_from_database`: records are extracted in
source order and pushed; a failing record propagates `None` for the whole
function. -/
def extractAll : List Json → Option (List ReadingListItem)
  | [] => some []
  | r :: rs =>
    match extractItem r with
    | none => none
    | some item =>
      match extractAll rs with
      | none => none
      | some items => some (item :: items)

/-- `fn get_formatted_data_from_database`. -/
def get_formatted_data_from_database (database : Json) : Option ReadingList :=
  match (database.get "results").bind Json.asArray with
  | none => none
  | some records =>
    match extractAll records with
    | none => none
    | some items => some ⟨items⟩

/-- The nested lookup `properties.URL.url` as a string, by itself. -/
def rawUrl (r : Json) : Option String :=
  ((r.get "properties").bind (fun props =>
    (props.get "URL").bind (fun u => u.get "url"))).bind Json.asStr

/-- The nested lookup `properties.Name.title[0].plain_text` as a string, by
itself (before the slash replacement). -/
def rawTitle (r : Json) : Option String :=
  ((r.get "properties").bind (fun props =>
    ((((props.get "Name").bind (fun n => n.get "title")).bind
      Json.asArray).bind (fun a => a.get? 0)).bind
      (fun t0 => t0.get "plain_text"))).bind Json.asStr

/-- The lookup `created_time` as a string, by itself. -/
def rawDate (r : Json) : Option String :=
  (r.get "created_time").bind Json.asStr

/-- The item a well-formed record is mapped to: the three raw values, with
the slash replacement applied to the title. -/
def itemFromRecord (r : Json) : ReadingListItem :=
  ⟨(rawUrl r).getD "", replaceSlash ((rawTitle r).getD ""), (rawDate r).getD ""⟩

/-- Filesystem model: created directories and a partial map path ↦ content.
`create_dir_all`'s creation of intermediate directories is collapsed to the
full target path, which is all the claims observe. -/
structure FS where
  dirs : List String
  files : String → Option String

/-- The empty filesystem. -/
def emptyFS : FS := ⟨[], fun _ => none⟩

/-- Overwriting write of one file (`File::create` truncates an existing
file, then the whole content is written). -/
def fsSet (f : String → Option String) (p c : String) : String → Option String :=
  fun q => if q = p then some c else f q

/-- `create_dir_all`: a no-op when the directory already exists. -/
def insertDir (dirs : List String) (d : String) : List String :=
  if d ∈ dirs then dirs else d :: dirs

/-- `format!("{}{}.{}", DIST_PATH, item.title, "md")`. -/
def filePath (item : ReadingListItem) : String :=
  DIST_PATH ++ item.title ++ "." ++ "md"

/-- The `format!` template of `write_mdfiles_to_dist`: the front-matter block
followed by the url as body. -/
def fileContent (item : ReadingListItem) : String :=
  "---\ntitle: \"" ++ item.title ++ "\"\ndate: " ++ item.date ++
    "\ndraft: false\naffiliatelink: " ++ item.url ++ "\n---\n" ++ item.url ++ "\n"

/-- `fn write_mdfiles_to_dist`: ensure the output directory, then write one
file per item, in list order. -/
def write_mdfiles_to_dist (fs : FS) (list : ReadingList) : FS :=
  ⟨insertDir fs.dirs DIST_PATH,
   list.items.foldl (fun f item => fsSet f (filePath item) (fileContent item)) fs.files⟩

/-- The observable stage events of one run of `main`. -/
inductive Event where
  | fetched : Event
  | fetchFailed : Event
  | transformed : Event
  | transformFailed : Event
  | repoAcquired : Event
  | repoAcquireFailed : Event
  | wroteFiles : Event
  | published : Event
  | publishFailed : Event
deriving DecidableEq, Repr

/-- `fn main`, with the three external effects abstracted by parameters:
`fetchResult` is the outcome of `get_database_from_notion` (`none` = fetch
error), `cloneOk` the outcome of `clone_target_repo_from_gh`, `publishOk` the
outcome of `setup_target_repo_commit_and_push`. Each `.expect` aborts the
run, ending the trace. The source acquires the repository *before* writing
the files. -/
def runMain (fetchResult : Option Json) (cloneOk publishOk : Bool) (fs : FS) :
    List Event × FS :=
  match fetchResult with
  | none => ([Event.fetchFailed], fs)
  | some db =>
    match get_formatted_data_from_database db with
    | none => ([Event.fetched, Event.transformFailed], fs)
    | some data =>
      if cloneOk then
        let fs2 := write_mdfiles_to_dist fs data
        if publishOk then
          ([Event.fetched, Event.transformed, Event.repoAcquired,
            Event.wroteFiles, Event.published], fs2)
        else
          ([Event.fetched, Event.transformed, Event.repoAcquired,
            Event.wroteFiles, Event.publishFailed], fs2)
      else
        ([Event.fetched, Event.transformed, Event.repoAcquireFailed], fs)

/-! ### Helper lemmas about the transformer -/

theorem asArray_eq_some {v : Json} {xs : List Json} :
    v.asArray = some xs ↔ v = Json.arr xs := by
  cases v <;> simp [Json.asArray]

theorem extractItem_some {r : Json} {item : ReadingListItem}
    (h : extractItem r = some item) :
    rawUrl r = some item.url ∧
      (∃ t, rawTitle r = some t ∧ item.title = replaceSlash t) ∧
      rawDate r = some item.date := by
  unfold extractItem at h
  split at h
  · exact Option.noConfusion h
  next props hp =>
    split at h
    · exact Option.noConfusion h
    next url hu =>
      split at h
      · exact Option.noConfusion h
      next pt ht =>
        split at h
        · exact Option.noConfusion h
        next date hd =>
          cases h
          refine ⟨?_, ⟨pt, ?_, rfl⟩, ?_⟩
          · simpa [rawUrl, hp] using hu
          · simpa [rawTitle, hp] using ht
          · simpa [rawDate] using hd

theorem extractItem_of_raw {r : Json} {u t d : String}
    (hu : rawUrl r = some u) (ht : rawTitle r = some t) (hd : rawDate r = some d) :
    extractItem r = some ⟨u, replaceSlash t, d⟩ := by
  cases hp : r.get "properties" with
  | none => simp [rawUrl, hp] at hu
  | some props =>
    simp only [rawUrl, hp, Option.some_bind] at hu
    simp only [rawTitle, hp, Option.some_bind] at ht
    simp only [rawDate] at hd
    simp only [extractItem, hp, hu, ht, hd]

theorem extractAll_length : ∀ {rs : List Json} {items : List ReadingListItem},
    extractAll rs = some items → items.length = rs.length := by
  intro rs
  induction rs with
  | nil =>
    intro items h
    simp only [extractAll] at h
    cases h
    rfl
  | cons r rest ih =>
    intro items h
    unfold extractAll at h
    split at h
    · exact Option.noConfusion h
    next item hitem =>
      split at h
      · exact Option.noConfusion h
      next rest' hrest =>
        cases h
        simp [ih hrest]

theorem extractAll_get? : ∀ {rs : List Json} {items : List ReadingListItem},
    extractAll rs = some items → ∀ (i : Nat) (r : Json), rs[i]? = some r →
      ∃ item, items[i]? = some item ∧ extractItem r = some item := by
  intro rs
  induction rs with
  | nil => intro items _ i r hr; simp at hr
  | cons rr rest ih =>
    intro items h i r hr
    unfold extractAll at h
    split at h
    · exact Option.noConfusion h
    next item hitem =>
      split at h
      · exact Option.noConfusion h
      next rest' hrest =>
        cases h
        cases i with
        | zero =>
          simp only [List.getElem?_cons_zero, Option.some.injEq] at hr
          exact ⟨item, by simp, by rw [← hr]; exact hitem⟩
        | succ j =>
          simp only [List.getElem?_cons_succ] at hr
          obtain ⟨item', hi, he⟩ := ih hrest j r hr
          exact ⟨item', by simpa using hi, he⟩

theorem extractAll_mem : ∀ {rs : List Json} {items : List ReadingListItem}
    {item : ReadingListItem}, extractAll rs = some items → item ∈ items →
      ∃ r, r ∈ rs ∧ extractItem r = some item := by
  intro rs
  induction rs with
  | nil =>
    intro items item h hm
    simp only [extractAll] at h
    cases h
    exact absurd hm (by simp)
  | cons rr rest ih =>
    intro items item h hm
    unfold extractAll at h
    split at h
    · exact Option.noConfusion h
    next it hit =>
      split at h
      · exact Option.noConfusion h
      next rest' hrest =>
        cases h
        rcases List.mem_cons.mp hm with h1 | h2
        · exact ⟨rr, List.mem_cons_self .., h1 ▸ hit⟩
        · obtain ⟨r, hr, he⟩ := ih hrest h2
          exact ⟨r, List.mem_cons_of_mem _ hr, he⟩

theorem extractAll_of_fail : ∀ {rs : List Json} {r : Json},
    r ∈ rs → extractItem r = none → extractAll rs = none := by
  intro rs
  induction rs with
  | nil => intro r hr; simp at hr
  | cons rr rest ih =>
    intro r hr hfail
    rcases List.mem_cons.mp hr with h1 | h2
    · simp [extractAll, h1 ▸ hfail]
    · have h3 := ih h2 hfail
      simp only [extractAll, h3]
      cases extractItem rr <;> rfl

theorem extractAll_of_all_some : ∀ {rs : List Json},
    (∀ r ∈ rs, extractItem r = some (itemFromRecord r)) →
      extractAll rs = some (rs.map itemFromRecord) := by
  intro rs
  induction rs with
  | nil => intro _; simp [extractAll]
  | cons rr rest ih =>
    intro h
    have h1 := h rr (List.mem_cons_self ..)
    have h2 := ih (fun r hr => h r (List.mem_cons_of_mem _ hr))
    simp [extractAll, h1, h2]

theorem gfd_eq_some {db : Json} {l : ReadingList} :
    get_formatted_data_from_database db = some l ↔
      ∃ rs, db.get "results" = some (Json.arr rs) ∧ extractAll rs = some l.items := by
  constructor
  · intro h
    unfold get_formatted_data_from_database at h
    split at h
    · exact Option.noConfusion h
    next rs hrs =>
      split at h
      · exact Option.noConfusion h
      next items hitems =>
        cases h
        obtain ⟨v, hv, hva⟩ := Option.bind_eq_some.mp hrs
        exact ⟨rs, by rw [hv, asArray_eq_some.mp hva], hitems⟩
  · rintro ⟨rs, hrs, hitems⟩
    cases l
    simp only [get_formatted_data_from_database, hrs, Option.some_bind,
      Json.asArray, hitems]

theorem gfd_eq_none_of_fail {db : Json} {rs : List Json} {r : Json}
    (hrs : db.get "results" = some (Json.arr rs)) (hr : r ∈ rs)
    (hfail : extractItem r = none) :
    get_formatted_data_from_database db = none := by
  simp only [get_formatted_data_from_database, hrs, Option.some_bind,
    Json.asArray, extractAll_of_fail hr hfail]

/-! ### Helper lemmas about the writer -/

/-- The content left at path `p` by the per-item writes of a list, later
items winning (`none` when no item writes to `p`). -/
def lastWrite : List ReadingListItem → String → Option String
  | [], _ => none
  | item :: rest, p =>
    match lastWrite rest p with
    | some c => some c
    | none => if p = filePath item then some (fileContent item) else none

theorem foldl_fsSet : ∀ (l : List ReadingListItem) (f : String → Option String)
    (p : String),
    (l.foldl (fun g item => fsSet g (filePath item) (fileContent item)) f) p =
      match lastWrite l p with
      | some c => some c
      | none => f p := by
  intro l
  induction l with
  | nil => intro f p; rfl
  | cons item rest ih =>
    intro f p
    simp only [List.foldl_cons, lastWrite]
    rw [ih]
    cases lastWrite rest p with
    | some c => rfl
    | none =>
      simp only [fsSet]
      by_cases hp : p = filePath item <;> simp [hp]

theorem mem_insertDir (dirs : List String) (d : String) : d ∈ insertDir dirs d := by
  unfold insertDir
  split
  · assumption
  · exact List.mem_cons_self ..

theorem insertDir_idem (dirs : List String) (d : String) :
    insertDir (insertDir dirs d) d = insertDir dirs d :=
  if_pos (mem_insertDir dirs d)

theorem filePath_eq (item : ReadingListItem) :
    filePath item = "dist/content/reading/" ++ item.title ++ ".md" := by
  apply String.ext
  simp [filePath, DIST_PATH, String.data_append, List.append_assoc]

/-! ### Concrete inputs -/

/-- The record of end-to-end scenario 1 (title `Foo/Bar`). -/
def recScenario1 : Json := Json.obj [
  ("created_time", Json.str "2024-01-01T00:00:00.000Z"),
  ("properties", Json.obj [
    ("URL", Json.obj [("url", Json.str "https://x.io")]),
    ("Name", Json.obj [("title",
      Json.arr [Json.obj [("plain_text", Json.str "Foo/Bar")]])])])]

/-- The item scenario 1's record is transformed into. -/
def itemScenario1 : ReadingListItem :=
  ⟨"https://x.io", "Foo-Bar", "2024-01-01T00:00:00.000Z"⟩

/-- Scenario 1's response: one well-formed record. -/
def dbScenario1 : Json := Json.obj [("results", Json.arr [recScenario1])]

/-- A record with no `properties` key at all. -/
def recMissingProps : Json :=
  Json.obj [("created_time", Json.str "2024-01-02T00:00:00.000Z")]

/-- A response holding a malformed record followed by a well-formed one. -/
def dbBadThenGood : Json :=
  Json.obj [("results", Json.arr [recMissingProps, recScenario1])]

/-- A record whose three required values are present but all empty strings. -/
def recEmptyFields : Json := Json.obj [
  ("created_time", Json.str ""),
  ("properties", Json.obj [
    ("URL", Json.obj [("url", Json.str "")]),
    ("Name", Json.obj [("title",
      Json.arr [Json.obj [("plain_text", Json.str "")]])])])]

/-- A response holding only the empty-fields record. -/
def dbEmptyFields : Json := Json.obj [("results", Json.arr [recEmptyFields])]

/-- A record whose title is `a/b`. -/
def recSlashTitle : Json := Json.obj [
  ("created_time", Json.str "2024-03-04T00:00:00.000Z"),
  ("properties", Json.obj [
    ("URL", Json.obj [("url", Json.str "https://e.org")]),
    ("Name", Json.obj [("title",
      Json.arr [Json.obj [("plain_text", Json.str "a/b")]])])])]

/-- A response holding only the `a/b` record. -/
def dbSlashTitle : Json := Json.obj [("results", Json.arr [recSlashTitle])]

/-- A response whose `results` array is present but empty. -/
def dbEmptyResults : Json := Json.obj [("results", Json.arr [])]

/-- A response with no `results` key at all. -/
def dbNoResults : Json := Json.obj [("object", Json.str "error")]

/-! ### Claims -/

/-- **C1** counterexample: the claim says a record missing a required field is
dropped alone while subsequent well-formed records are retained. In the
source each `?` propagates `None` for the whole function, so with a malformed
record followed by a well-formed one the Transformer returns `none`: the
well-formed second record is *not* retained. -/
theorem C1_counterexample :
    extractItem recMissingProps = none ∧
    extractItem recScenario1 = some itemScenario1 ∧
    get_formatted_data_from_database dbBadThenGood = none :=
  ⟨rfl, by decide, rfl⟩

/-- **C1** (amended): if any record of the `results` array is missing one of
the three required fields/paths (its extraction fails), the Transformer fails
as a whole, returning `none`: no items are produced for *any* record, and
subsequent well-formed records are not retained. -/
theorem C1_bad_record_aborts_transform (db : Json) (rs : List Json) (r : Json)
    (hrs : db.get "results" = some (Json.arr rs)) (hr : r ∈ rs)
    (hfail : extractItem r = none) :
    get_formatted_data_from_database db = none :=
  gfd_eq_none_of_fail hrs hr hfail

/-- Witness for C1 (amended) at the malformed-then-well-formed response. -/
theorem C1_bad_record_aborts_transform_witness :
    get_formatted_data_from_database dbBadThenGood = none :=
  C1_bad_record_aborts_transform dbBadThenGood [recMissingProps, recScenario1]
    recMissingProps rfl (List.mem_cons_self ..) rfl

/-- **C2** counterexample: the claim says every item reaching the Writer has
non-empty title, url and date. The source never checks emptiness: a record
whose three values are present but empty strings is transformed into an item
with empty title, url and date, which the Writer then receives. -/
theorem C2_counterexample :
    get_formatted_data_from_database dbEmptyFields =
      some ⟨[{ url := "", title := "", date := "" }]⟩ := by
  decide

/-- **C2** (amended): every item of a ReadingList produced by the Transformer
(and hence passed to the Writer) carries exactly the three strings extracted
from one of the source records — url and date verbatim, title after slash
replacement — and these may be empty; a record from which one of the three
values cannot be extracted never yields a default-filled item (the whole
transformation fails instead, per C1). -/
theorem C2_items_are_exact_extractions (db : Json) (l : ReadingList)
    (item : ReadingListItem) (h : get_formatted_data_from_database db = some l)
    (hm : item ∈ l.items) :
    ∃ rs r, db.get "results" = some (Json.arr rs) ∧ r ∈ rs ∧
      rawUrl r = some item.url ∧
      (∃ t, rawTitle r = some t ∧ item.title = replaceSlash t) ∧
      rawDate r = some item.date := by
  obtain ⟨rs, hrs, hall⟩ := gfd_eq_some.mp h
  obtain ⟨r, hr, he⟩ := extractAll_mem hall hm
  exact ⟨rs, r, hrs, hr, extractItem_some he⟩

/-- Witness for C2 (amended) at scenario 1's response. -/
theorem C2_items_are_exact_extractions_witness :
    ∃ rs r, dbScenario1.get "results" = some (Json.arr rs) ∧ r ∈ rs ∧
      rawUrl r = some itemScenario1.url ∧
      (∃ t, rawTitle r = some t ∧ itemScenario1.title = replaceSlash t) ∧
      rawDate r = some itemScenario1.date :=
  C2_items_are_exact_extractions dbScenario1 ⟨[itemScenario1]⟩ itemScenario1
    (by decide) (by decide)

/-- **C3**: when every record of the `results` array is well-formed (the
url, first-title plain_text and created_time paths all resolve to non-empty
strings), the Transformer succeeds and produces exactly one item per record,
in source order: url and date carried verbatim, the title with `/` replaced
by `-`. -/
theorem C3_well_formed_records_one_item_each (db : Json) (rs : List Json)
    (hrs : db.get "results" = some (Json.arr rs))
    (hwf : ∀ r ∈ rs, ∃ u t d, rawUrl r = some u ∧ u ≠ "" ∧
      rawTitle r = some t ∧ t ≠ "" ∧ rawDate r = some d ∧ d ≠ "") :
    get_formatted_data_from_database db = some ⟨rs.map itemFromRecord⟩ := by
  apply gfd_eq_some.mpr
  refine ⟨rs, hrs, ?_⟩
  apply extractAll_of_all_some
  intro r hr
  obtain ⟨u, t, d, hu, _, ht, _, hd, _⟩ := hwf r hr
  rw [extractItem_of_raw hu ht hd]
  simp [itemFromRecord, hu, ht, hd]

/-- Witness for C3 at scenario 1's response. -/
theorem C3_well_formed_records_one_item_each_witness :
    get_formatted_data_from_database dbScenario1 =
      some ⟨[recScenario1].map itemFromRecord⟩ := by
  apply C3_well_formed_records_one_item_each dbScenario1 [recScenario1] rfl
  intro r hr
  rw [List.mem_singleton.mp hr]
  exact ⟨"https://x.io", "Foo/Bar", "2024-01-01T00:00:00.000Z",
    rfl, by decide, rfl, by decide, rfl, by decide⟩

/-- **C4**: every title of an item produced by the Transformer has had `/`
replaced by `-`, so no retained item's title contains a path separator; and
the record whose source title is `a/b` yields the item title `a-b` and the
output filename `dist/content/reading/a-b.md`. -/
theorem C4_titles_never_contain_slash :
    (∀ (db : Json) (l : ReadingList) (item : ReadingListItem),
        get_formatted_data_from_database db = some l → item ∈ l.items →
          '/' ∉ item.title.data) ∧
    get_formatted_data_from_database dbSlashTitle =
      some ⟨[⟨"https://e.org", "a-b", "2024-03-04T00:00:00.000Z"⟩]⟩ ∧
    filePath ⟨"https://e.org", "a-b", "2024-03-04T00:00:00.000Z"⟩ =
      "dist/content/reading/a-b.md" := by
  refine ⟨?_, by decide, by decide⟩
  intro db l item h hm
  obtain ⟨rs, hrs, hall⟩ := gfd_eq_some.mp h
  obtain ⟨r, hr, he⟩ := extractAll_mem hall hm
  obtain ⟨_, ⟨t, _, htitle⟩, _⟩ := extractItem_some he
  rw [htitle]
  intro hmem
  rw [show (replaceSlash t).data =
    t.data.map (fun c => if c = '/' then '-' else c) from rfl] at hmem
  obtain ⟨c, _, hc⟩ := List.mem_map.mp hmem
  by_cases h' : c = '/' <;> simp [h'] at hc

/-- Witness for the universally quantified part of C4 at the `a/b` record. -/
theorem C4_titles_never_contain_slash_witness :
    '/' ∉ (ReadingListItem.mk "https://e.org" "a-b" "2024-03-04T00:00:00.000Z").title.data :=
  C4_titles_never_contain_slash.1 dbSlashTitle
    ⟨[⟨"https://e.org", "a-b", "2024-03-04T00:00:00.000Z"⟩]⟩
    ⟨"https://e.org", "a-b", "2024-03-04T00:00:00.000Z"⟩ (by decide) (by decide)

/-- **C10**: whenever the Transformer succeeds, the `results` array was
present and every one of its records extracted successfully: the output has
exactly one item per record (equal lengths), each item being the extraction
of the record at the same index — no record of a successful result is ever
individually dropped. -/
theorem C10_success_extracts_every_record (db : Json) (l : ReadingList)
    (h : get_formatted_data_from_database db = some l) :
    ∃ rs : List Json, db.get "results" = some (Json.arr rs) ∧
      l.items.length = rs.length ∧
      ∀ (i : Nat) (r : Json), rs[i]? = some r →
        ∃ item, l.items[i]? = some item ∧ extractItem r = some item := by
  obtain ⟨rs, hrs, hall⟩ := gfd_eq_some.mp h
  exact ⟨rs, hrs, extractAll_length hall, extractAll_get? hall⟩

/-- Witness for C10 at scenario 1's response. -/
theorem C10_success_extracts_every_record_witness :
    ∃ rs : List Json, dbScenario1.get "results" = some (Json.arr rs) ∧
      (ReadingList.mk [itemScenario1]).items.length = rs.length ∧
      ∀ (i : Nat) (r : Json), rs[i]? = some r →
        ∃ item, (ReadingList.mk [itemScenario1]).items[i]? = some item ∧
          extractItem r = some item :=
  C10_success_extracts_every_record dbScenario1 ⟨[itemScenario1]⟩ (by decide)

/-- **C5**: the Writer performs exactly one file write per item — at path
`dist/content/reading/<title>.md`, with content exactly the front-matter
block `---`, `title: "<title>"`, `date: <date>`, `draft: false`,
`affiliatelink: <url>`, `---`, followed by `<url>` as the body (the url
appearing exactly twice: once as metadata, once as body) — applied to the
filesystem in list order; concretely, scenario 1's response yields the file
`dist/content/reading/Foo-Bar.md` with exactly that content. -/
theorem C5_writer_writes_exact_template :
    (∀ (fs : FS) (list : ReadingList),
      (write_mdfiles_to_dist fs list).files =
        (list.items.map (fun i =>
          ("dist/content/reading/" ++ i.title ++ ".md",
           "---\ntitle: \"" ++ i.title ++ "\"\ndate: " ++ i.date ++
             "\ndraft: false\naffiliatelink: " ++ i.url ++ "\n---\n" ++
             i.url ++ "\n"))).foldl (fun f op => fsSet f op.1 op.2) fs.files) ∧
    get_formatted_data_from_database dbScenario1 = some ⟨[itemScenario1]⟩ ∧
    (write_mdfiles_to_dist emptyFS ⟨[itemScenario1]⟩).files
        "dist/content/reading/Foo-Bar.md" =
      some "---\ntitle: \"Foo-Bar\"\ndate: 2024-01-01T00:00:00.000Z\ndraft: false\naffiliatelink: https://x.io\n---\nhttps://x.io\n" := by
  refine ⟨?_, by decide, rfl⟩
  intro fs list
  rw [List.foldl_map]
  show list.items.foldl
      (fun f item => fsSet f (filePath item) (fileContent item)) fs.files = _
  have hstep : (fun (f : String → Option String) (item : ReadingListItem) =>
      fsSet f (filePath item) (fileContent item)) =
      (fun f item => fsSet f ("dist/content/reading/" ++ item.title ++ ".md")
        ("---\ntitle: \"" ++ item.title ++ "\"\ndate: " ++ item.date ++
          "\ndraft: false\naffiliatelink: " ++ item.url ++ "\n---\n" ++
          item.url ++ "\n")) := by
    funext f item
    rw [filePath_eq]
    rfl
  rw [hstep]

/-- **C6**: the Writer is idempotent — a second run with the same list leaves
the same directories and, at every path, the same file content — because a
path's final content is the last write to it (`File::create` silently
replaces; no duplication or appending). -/
theorem C6_writer_idempotent (fs : FS) (list : ReadingList) (p : String) :
    (write_mdfiles_to_dist (write_mdfiles_to_dist fs list) list).files p =
      (write_mdfiles_to_dist fs list).files p ∧
    (write_mdfiles_to_dist (write_mdfiles_to_dist fs list) list).dirs =
      (write_mdfiles_to_dist fs list).dirs ∧
    (write_mdfiles_to_dist fs list).files p =
      (match lastWrite list.items p with
       | some c => some c
       | none => fs.files p) := by
  refine ⟨?_, insertDir_idem .., foldl_fsSet ..⟩
  show (list.items.foldl (fun f item => fsSet f (filePath item) (fileContent item))
      (write_mdfiles_to_dist fs list).files) p =
    (write_mdfiles_to_dist fs list).files p
  rw [foldl_fsSet]
  cases h : lastWrite list.items p with
  | some c =>
    show some c = (list.items.foldl
      (fun f item => fsSet f (filePath item) (fileContent item)) fs.files) p
    rw [foldl_fsSet, h]
  | none => rfl

/-- **C7**: a present-but-empty `results` array is a valid, non-error
outcome: the Transformer returns the empty ReadingList, the Writer writes no
file while still creating the output directory, and the Publisher still
runs. -/
theorem C7_empty_results_is_success (fs : FS) :
    get_formatted_data_from_database dbEmptyResults = some ⟨[]⟩ ∧
    runMain (some dbEmptyResults) true true fs =
      ([Event.fetched, Event.transformed, Event.repoAcquired, Event.wroteFiles,
        Event.published], ⟨insertDir fs.dirs DIST_PATH, fs.files⟩) ∧
    DIST_PATH ∈ (runMain (some dbEmptyResults) true true fs).2.dirs := by
  refine ⟨rfl, rfl, ?_⟩
  exact mem_insertDir fs.dirs DIST_PATH

/-- **C8**: when the top-level `results` key is absent, or its value is not
an array, the whole transformation fails (`none`) and the run aborts right
after the transform stage: no file is written (the filesystem is returned
unchanged) and no repository operation occurs. -/
theorem C8_missing_results_aborts (db : Json)
    (h : ∀ rs : List Json, db.get "results" ≠ some (Json.arr rs))
    (cloneOk publishOk : Bool) (fs : FS) :
    get_formatted_data_from_database db = none ∧
    runMain (some db) cloneOk publishOk fs =
      ([Event.fetched, Event.transformFailed], fs) := by
  have hnone : get_formatted_data_from_database db = none := by
    unfold get_formatted_data_from_database
    cases hv : db.get "results" with
    | none => rfl
    | some v => cases v <;> first | rfl | exact absurd hv (h _)
  exact ⟨hnone, by simp [runMain, hnone]⟩

/-- Witness for C8 at a response with no `results` key. -/
theorem C8_missing_results_aborts_witness :
    get_formatted_data_from_database dbNoResults = none ∧
    runMain (some dbNoResults) true true emptyFS =
      ([Event.fetched, Event.transformFailed], emptyFS) :=
  C8_missing_results_aborts dbNoResults (fun _ hx => Option.noConfusion hx)
    true true emptyFS

/-- **C9** counterexample: the claim says no Publisher operation — including
acquiring the working copy by clone or reuse — occurs before the Writer has
run. In the source, `clone_target_repo_from_gh` is called *before*
`write_mdfiles_to_dist`: in a fully successful run the repository-acquisition
event sits at index 2 of the trace, before the file-writing event at
index 3. -/
theorem C9_counterexample :
    (runMain (some dbScenario1) true true emptyFS).1 =
      [Event.fetched, Event.transformed, Event.repoAcquired, Event.wroteFiles,
        Event.published] ∧
    (runMain (some dbScenario1) true true emptyFS).1[2]? =
      some Event.repoAcquired ∧
    (runMain (some dbScenario1) true true emptyFS).1[3]? =
      some Event.wroteFiles :=
  ⟨rfl, rfl, rfl⟩

/-- **C9** (amended): the stages execute strictly in the order Loader →
Fetcher → Transformer → repository acquisition (clone or reuse) → Writer →
commit-and-push: the trace of any run is one of the five prefixes of that
order, so each stage's success is a precondition for the next — and a fetch
failure aborts the run before any file is written and before any repository
operation occurs (the filesystem is returned unchanged). -/
theorem C9_pipeline_order (fetchResult : Option Json) (cloneOk publishOk : Bool)
    (fs : FS) :
    ((runMain fetchResult cloneOk publishOk fs).1 = [Event.fetchFailed] ∨
     (runMain fetchResult cloneOk publishOk fs).1 =
       [Event.fetched, Event.transformFailed] ∨
     (runMain fetchResult cloneOk publishOk fs).1 =
       [Event.fetched, Event.transformed, Event.repoAcquireFailed] ∨
     (runMain fetchResult cloneOk publishOk fs).1 =
       [Event.fetched, Event.transformed, Event.repoAcquired, Event.wroteFiles,
         Event.publishFailed] ∨
     (runMain fetchResult cloneOk publishOk fs).1 =
       [Event.fetched, Event.transformed, Event.repoAcquired, Event.wroteFiles,
         Event.published]) ∧
    (fetchResult = none →
      runMain fetchResult cloneOk publishOk fs = ([Event.fetchFailed], fs)) := by
  constructor
  · cases fetchResult with
    | none => exact Or.inl rfl
    | some db =>
      cases h : get_formatted_data_from_database db with
      | none => exact Or.inr (Or.inl (by simp [runMain, h]))
      | some data =>
        cases cloneOk with
        | false => exact Or.inr (Or.inr (Or.inl (by simp [runMain, h])))
        | true =>
          cases publishOk with
          | false =>
            exact Or.inr (Or.inr (Or.inr (Or.inl (by simp [runMain, h]))))
          | true =>
            exact Or.inr (Or.inr (Or.inr (Or.inr (by simp [runMain, h]))))
  · rintro rfl
    rfl

/-- Witness for C9 (amended): a failed fetch leaves the trace at
`fetchFailed` and the filesystem untouched. -/
theorem C9_pipeline_order_witness :
    runMain none true true emptyFS = ([Event.fetchFailed], emptyFS) :=
  (C9_pipeline_order none true true emptyFS).2 rfl
